import Mathlib

/-!
Shallow embedding of the tensor-view engine implemented in
`TensorView.cpp` (shape negotiation, elementwise dispatch, tensor-to-matrix
bridge, batched gather/scatter), together with theorems settling the
specification claims about it.

Conventions of the embedding:
* `size_t` extents become `Nat`, `ptrdiff_t` strides become `Int`.
* Fallible code returns `Except TVErr _`; the distinct C++ exception kinds
  (`InvalidArgument`, `LogicError`, `RuntimeError`) are recovered from an
  error value by `TVErr.severity`.
* Object identity of a `TensorView` (the `&a == &b` comparison of
  `CheckDifferentObject`) is modelled by a numeric `id` field.
* The `TensorShape` class itself is not part of the given source file (only
  its callers are); its primitives are modelled from the specification and
  each such definition is marked `Modelled from the spec:`.
-/

/-- A tensor shape: per-axis extents, per-axis element strides, and a scalar
element offset into the storage object.  This mirrors the data model of the
`TensorShape` objects consumed by `TensorView.cpp`. -/
structure TensorShape where
  dims : List Nat
  strides : List Int
  offset : Nat
deriving Repr, DecidableEq, Inhabited

namespace TensorShape

/-- Rank of a shape (number of axes); `GetRank()`. -/
def rank (s : TensorShape) : Nat := s.dims.length

/-- Extent on axis `k`.  All C++ accesses `shape[k]` happen in range; the
default `1` coincides with the 1-padding convention for trailing axes. -/
def dim (s : TensorShape) (k : Nat) : Nat := s.dims.getD k 1

/-- Stride on axis `k`; `GetStrides()[k]`. -/
def stride (s : TensorShape) (k : Nat) : Int := s.strides.getD k 0

/-- Total number of addressed elements; `GetNumElements()` (product of the
extents, `1` for a rank-0 scalar). -/
def numElements (s : TensorShape) : Nat := s.dims.foldl (· * ·) 1

/-- Modelled from the spec: `TensorShape::PadRankInPlace` is not part of the
given source.  The spec (§4.1 step 1) pads a shape "with trailing unit axes"
up to the requested rank; the padded axes carry the dense continuation
stride (stride of the element right after the addressed block), which keeps
a dense shape dense and is gapless for the flattening check. -/
def padRank (s : TensorShape) (r : Nat) : TensorShape :=
  let next : Int :=
    match s.dims, s.strides with
    | [], _ => 1
    | _, _ => s.strides.getLastD 1 * (s.dims.getLastD 1 : Int)
  { dims := s.dims ++ List.replicate (r - s.rank) 1
    strides := s.strides ++ List.replicate (r - s.rank) next
    offset := s.offset }

/-- Modelled from the spec: `TensorShape::CanFlatten` is not part of the
given source.  Axes `k-1` and `k` are stored "without gaps" (spec §4.1
step 4: contiguous in memory, no stride gap) iff the stride of axis `k` is
the stride of axis `k-1` times its extent. -/
def canFlatten (s : TensorShape) (k : Nat) : Bool :=
  s.stride k == s.stride (k - 1) * (s.dim (k - 1) : Int)

/-- Modelled from the spec: `TensorShape::FlattenInPlace` is not part of the
given source.  Merges axes `k-1` and `k`: axis `k` receives the merged
extent and the smaller stride, axis `k-1` becomes a unit axis (it is later
removed by the all-singleton drop step, which `PrepareTensorOperands`
performs right after the flattening loop). -/
def flattenAt (s : TensorShape) (k : Nat) : TensorShape :=
  { dims := (s.dims.set k (s.dim (k - 1) * s.dim k)).set (k - 1) 1
    strides := s.strides.set k (s.stride (k - 1))
    offset := s.offset }

/-- Modelled from the spec: `TensorShape::DropDimsInPlace` /
`TensorShape::DropDims` are not part of the given source.  Keeps exactly the
entries whose mask flag is `false` (spec §4.1 step 5 drops the flagged
axes). -/
def dropByMask {α : Type} : List Bool → List α → List α
  | true :: ms, _ :: xs => dropByMask ms xs
  | false :: ms, x :: xs => x :: dropByMask ms xs
  | _, xs => xs

/-- `DropDims` applied to a whole shape: extents and strides are filtered by
the mask, the offset is untouched. -/
def dropDims (s : TensorShape) (mask : List Bool) : TensorShape :=
  { dims := dropByMask mask s.dims
    strides := dropByMask mask s.strides
    offset := s.offset }

/-- Modelled from the spec: `TensorShape::SetBroadcastStrides` is not part
of the given source.  Spec §4.1 step 6: a remaining unit axis marks genuine
broadcasting, so its effective stride is set to `0`. -/
def setBroadcastStrides (s : TensorShape) : TensorShape :=
  { dims := s.dims
    strides := s.dims.zipWith (fun d st => if d == 1 then 0 else st) s.strides
    offset := s.offset }

/-- All relative element addresses reached by a shape: every sum
`Σ index_k * stride_k` with `index_k < dims_k`. -/
def addressesOf : List (Nat × Int) → List Int
  | [] => [0]
  | (d, st) :: rest =>
    (List.range d).flatMap (fun i => (addressesOf rest).map (fun a => (i : Int) * st + a))

/-- Modelled from the spec: `TensorShape::IsDense` / `VerifyIsDense` are not
part of the given source.  The spec defines: "A shape is dense if
enumerating all elements in natural order visits every storage element
between offset and offset+count exactly once with no gaps", i.e. the
relative addresses are a permutation of `0 .. count-1`. -/
def isDense (s : TensorShape) : Bool :=
  decide ((addressesOf (s.dims.zip s.strides) : Multiset Int) =
          (((List.range s.numElements).map (Int.ofNat ·)) : Multiset Int))

end TensorShape

/-- The error vocabulary of the engine (each constructor corresponds to one
`InvalidArgument` / `LogicError` / `RuntimeError` call site in the source). -/
inductive TVErr where
  /-- `PrepareTensorOperands` was instantiated with no operands (the C++
  template requires `N ≥ 1`). -/
  | emptyOperandList
  /-- `PrepareTensorOperands`: "Dimension k of input [i] is incompatible
  with operation dimensions". -/
  | incompatibleDims (axis participant : Nat)
  /-- `CheckDifferentObject`: "When inverse broadcasting, output must not be
  an input." -/
  | aliasedOutput
  /-- `AsMatrix`: "tensor has too many axes to be interpreted as a matrix". -/
  | tooManyAxes
  /-- `AsMatrix`: "Flattened matrix is not dense (it has a stride)." -/
  | notDense
  /-- `AsMatrix`: "Sparse tensors are not supported unless they are 1D or 2D
  matrices." -/
  | sparseNotSupported
  /-- `AsMatrix`: "offset or width that is not a multiple of the storage
  object's row dimension." -/
  | notColumnAligned
  /-- `DoMatrixProductOf`: "Ranks don't match, output must have a
  non-reduced output dimension." -/
  | ranksDontMatch
  /-- `DoMatrixProductOf`: "Ranks mismatch" (odd rank surplus). -/
  | ranksMismatch
  /-- `FlattenTo2DInPlace` failure: an axis group is not dense. -/
  | flattenNotDense
  /-- `DoMatrixProductOf`: "Flattened tensor dimensions mismatch." -/
  | flattenedDimsMismatch
  /-- `CanGatherScatterBatch` / `DoScatterBatchOf`: batched shape "cannot be
  a scalar". -/
  | scalarGatherScatter
deriving Repr, DecidableEq

/-- The three error severities of §7 of the spec. -/
inductive ErrSeverity where
  | invalidArgument
  | logicError
  | runtimeError
deriving Repr, DecidableEq

/-- Which C++ exception class each error value is raised with. -/
def TVErr.severity : TVErr → ErrSeverity
  | .emptyOperandList => .invalidArgument
  | .incompatibleDims _ _ => .invalidArgument
  | .aliasedOutput => .logicError
  | .tooManyAxes => .invalidArgument
  | .notDense => .invalidArgument
  | .sparseNotSupported => .runtimeError
  | .notColumnAligned => .invalidArgument
  | .ranksDontMatch => .invalidArgument
  | .ranksMismatch => .invalidArgument
  | .flattenNotDense => .invalidArgument
  | .flattenedDimsMismatch => .invalidArgument
  | .scalarGatherScatter => .invalidArgument

/-- `static bool Matches(size_t d1, size_t d2)`: two extents are compatible
if they are equal or either one broadcasts. -/
def Matches (d1 d2 : Nat) : Bool := d1 == d2 || d1 == 1 || d2 == 1

/-- Result record of `PrepareTensorOperands`: per-participant offsets, the
regular (parallelizable) operation extents with per-participant strides, and
the reducing (accumulated) extents with per-participant strides. -/
structure PreparedOperands where
  offsets : List Nat
  regularOpDims : List Nat
  regularStrides : List (List Int)
  reducingOpDims : List Nat
  reducingStrides : List (List Int)
deriving Repr, DecidableEq

/-- The compatibility scan of `PrepareTensorOperands` (axis-major, then
participant): first `(axis, participant)` pair whose extent fails
`Matches` against the operation extent. -/
def firstIncompat (shapes : List TensorShape) (opDims : List Nat) : Option (Nat × Nat) :=
  (List.range opDims.length).findSome? (fun k =>
    ((List.range shapes.length).find? (fun i =>
        ! Matches ((shapes.getD i default).dim k) (opDims.getD k 0))).map (fun i => (k, i)))

/-- One step of the greedy flattening loop (`for k = 1 .. dims-1`): axes
`k-1` and `k` merge iff every participant stores them without a gap and is
either fully non-broadcasting or fully broadcasting across them; the
operation shape is flattened alongside. -/
def flattenStep (st : List TensorShape × List Nat) (k : Nat) : List TensorShape × List Nat :=
  let (shapes, opDims) := st
  if shapes.all (fun s =>
      s.canFlatten k &&
      ! ((s.dim k != opDims.getD k 0 || s.dim (k - 1) != opDims.getD (k - 1) 0) &&
         (s.dim k != 1 || s.dim (k - 1) != 1))) then
    (shapes.map (TensorShape.flattenAt · k),
     (opDims.set k (opDims.getD (k - 1) 0 * opDims.getD k 0)).set (k - 1) 1)
  else
    (shapes, opDims)

/-- The all-singleton drop step: axes where every participant has extent 1
are removed from all participants and from the operation shape. -/
def dropSingletons (st : List TensorShape × List Nat) : List TensorShape × List Nat :=
  let (shapes, opDims) := st
  let toDrop : List Bool :=
    (List.range opDims.length).map (fun k => shapes.all (fun s => s.dim k == 1))
  if toDrop.any id then
    (shapes.map (TensorShape.dropDims · toDrop), TensorShape.dropByMask toDrop opDims)
  else
    (shapes, opDims)

/-- Broadcast-stride materialization: a participant that broadcasts on some
axis has the strides of all its unit axes set to 0. -/
def broadcastStep (shapes : List TensorShape) (opDims : List Nat) : List TensorShape :=
  shapes.map (fun s =>
    if (List.range opDims.length).any (fun k => s.dim k < opDims.getD k 0) then
      s.setBroadcastStrides
    else s)

/-- Result record of the regular/reducing split stage. -/
structure SplitResult where
  regularOpDims : List Nat
  regularStrides : List (List Int)
  reducingOpDims : List Nat
  reducingStrides : List (List Int)
deriving Repr, DecidableEq

/-- The regular/reducing split of `PrepareTensorOperands` (lines 195-231):
an axis is reducing iff the last participant (the output) has extent 1
there; if any axis is reducing, regular and reducing extents/strides are
obtained by `DropDims` with the mask and its complement, otherwise the
reducing sequences are empty and the regular sequences are the full
shape/strides. -/
def splitRegularReducing (shapes : List TensorShape) (opDims : List Nat) : SplitResult :=
  let lastShape := shapes.getLastD default
  let isReducingDim : List Bool :=
    (List.range opDims.length).map (fun k => lastShape.dim k == 1)
  if isReducingDim.any id then
    let isRegularDim : List Bool := isReducingDim.map (!·)
    { regularOpDims := TensorShape.dropByMask isReducingDim opDims
      regularStrides := shapes.map (fun s => (s.dropDims isReducingDim).strides)
      reducingOpDims := TensorShape.dropByMask isRegularDim opDims
      reducingStrides := shapes.map (fun s => (s.dropDims isRegularDim).strides) }
  else
    { regularOpDims := opDims
      regularStrides := shapes.map (·.strides)
      reducingOpDims := []
      reducingStrides := shapes.map (fun _ => []) }

/-- `PrepareTensorOperands<ElemType, N>`: pads all shapes to a common rank
(at least 1), forms the operation shape as the per-axis maximum, checks
broadcast compatibility, greedily flattens gap-free axis pairs, drops
all-singleton axes, zeroes broadcast strides, and splits the result into
regular and reducing parts.  The last participant is the output. -/
def prepareTensorOperands (shapes0 : List TensorShape) : Except TVErr PreparedOperands :=
  match shapes0 with
  | [] => .error .emptyOperandList
  | s0 :: srest =>
    let dims := (srest.map TensorShape.rank).foldl max (max 1 s0.rank)
    let shapes := (s0 :: srest).map (TensorShape.padRank · dims)
    let opDims : List Nat :=
      (shapes.drop 1).foldl (fun acc s => acc.zipWith max s.dims)
        ((shapes.getD 0 default).dims)
    match firstIncompat shapes opDims with
    | some ki => .error (.incompatibleDims ki.1 ki.2)
    | none =>
      let st := (List.range' 1 (dims - 1)).foldl flattenStep (shapes, opDims)
      let st := dropSingletons st
      let shapes2 := broadcastStep st.1 st.2
      let split := splitRegularReducing shapes2 st.2
      .ok { offsets := shapes2.map (·.offset)
            regularOpDims := split.regularOpDims
            regularStrides := split.regularStrides
            reducingOpDims := split.reducingOpDims
            reducingStrides := split.reducingStrides }

/-- A tensor view: object identity (modelling the C++ object address used by
`CheckDifferentObject`) plus the shape it carries.  Kernel calls are
modelled at the dispatch boundary, so the storage contents are not needed
here. -/
structure TView where
  id : Nat
  shape : TensorShape
deriving Repr, DecidableEq

/-- The elementwise-operator opcodes that influence control flow in
`TensorView.cpp`; all others are collapsed into `other`. -/
inductive EWOp where
  | opElementwiseProduct
  | opSum
  | opCopy
  | other (code : Nat)
deriving Repr, DecidableEq

/-- The storage-object kernel invocation selected by a dispatch entry
point. -/
inductive KernelDispatch where
  /-- the generic `TensorOp` elementwise(+reduction) kernel -/
  | tensorOp (p : PreparedOperands)
  /-- the `TensorArgOp` argument-reduction kernel -/
  | tensorArgOp (p : PreparedOperands)
  /-- `Matrix::InnerProduct(A, B, C, isColWise=true)` on the inputs reshaped
  to `inShape` and the output reshaped to `outShape` -/
  | innerProduct (inShape outShape : List Nat)
  /-- `Matrix::ColumnwiseScaleAndWeightedAdd` on the data reshaped to
  `dataShape` and the weight reshaped to `weightShape` -/
  | columnwiseScaleAndWeightedAdd (dataShape weightShape : List Nat)
deriving Repr, DecidableEq

/-- `TensorView::DoUnaryOpOf`: negotiate shapes of `a` and the output, run
the reduction-aliasing check, then invoke the generic kernel. -/
def doUnaryOpOf (this a : TView) (op redOp : EWOp) : Except TVErr KernelDispatch :=
  match prepareTensorOperands [a.shape, this.shape] with
  | .error e => .error e
  | .ok p =>
    if p.reducingOpDims.length > 0 && this.id == a.id then .error .aliasedOutput
    else .ok (.tensorOp p)

/-- The `IsDotProduct` helper of `DoBinaryOpOf`: one reducing axis, unit
stride on both inputs and zero stride on the output there, and (if present)
a single regular axis whose strides are the reduced count on the inputs and
1 on the output. -/
def isDotProduct (p : PreparedOperands) : Bool :=
  let rStr := fun i j => ((p.reducingStrides.getD i []).getD j 0 : Int)
  let gStr := fun i j => ((p.regularStrides.getD i []).getD j 0 : Int)
  if p.reducingOpDims.length != 1 || rStr 0 0 != 1 || rStr 1 0 != 1 || rStr 2 0 != 0 then
    false
  else if p.regularOpDims.length != 0 then
    let reducedElements : Int := (p.reducingOpDims.getD 0 0 : Int)
    if p.regularOpDims.length != 1 || gStr 0 0 != reducedElements ||
       gStr 1 0 != reducedElements || gStr 2 0 != 1 then
      false
    else true
  else true

/-- The `IsDotProductGradient` helper of `DoBinaryOpOf`: no reduction, at
most two regular axes, one input broadcasting with consecutive layout, and a
consecutive batch axis if present. -/
def isDotProductGradient (p : PreparedOperands) : Bool :=
  let gStr := fun i j => ((p.regularStrides.getD i []).getD j 0 : Int)
  if p.reducingOpDims.length != 0 then false
  else if p.regularOpDims.length > 2 then false
  else if p.regularOpDims.length > 0 &&
          ((gStr 0 0 != 0 && gStr 1 0 != 0) || (gStr 0 0 > 1 || gStr 1 0 > 1)) then false
  else if p.regularOpDims.length > 1 &&
          (let aHeight : Int := if gStr 0 0 == 0 then 1 else (p.regularOpDims.getD 0 0 : Int)
           let bHeight : Int := if gStr 1 0 == 0 then 1 else (p.regularOpDims.getD 0 0 : Int)
           gStr 0 1 != aHeight || gStr 1 1 != bHeight) then false
  else true

/-- `TensorView::DoBinaryOpOf`: negotiate, run the reduction-aliasing check
against both inputs, then either recognize one of the two fused
multiply+sum patterns (dot product, dot-product gradient) or fall through to
the generic kernel. -/
def doBinaryOpOf (this a b : TView) (op redOp : EWOp) : Except TVErr KernelDispatch :=
  match prepareTensorOperands [a.shape, b.shape, this.shape] with
  | .error e => .error e
  | .ok p =>
    if p.reducingOpDims.length > 0 && (this.id == a.id || this.id == b.id) then
      .error .aliasedOutput
    else if op == .opElementwiseProduct && redOp == .opSum && isDotProduct p then
      let remainingElements := this.shape.numElements
      let reducedElements := a.shape.numElements / remainingElements
      .ok (.innerProduct [reducedElements, remainingElements] [1, remainingElements])
    else if op == .opElementwiseProduct && redOp == .opSum && isDotProductGradient p then
      let aIsWeight := p.regularOpDims.length == 0 ||
                       ((p.regularStrides.getD 0 []).getD 0 0 : Int) == 0
      let dataView := if aIsWeight then b else a
      let weightView := if aIsWeight then a else b
      let width := weightView.shape.numElements
      let height := dataView.shape.numElements / width
      .ok (.columnwiseScaleAndWeightedAdd [height, width] [1, width])
    else .ok (.tensorOp p)

/-- `TensorView::DoTernaryOpOf`: negotiate, aliasing check against the three
inputs, generic kernel. -/
def doTernaryOpOf (this a b c : TView) (op redOp : EWOp) : Except TVErr KernelDispatch :=
  match prepareTensorOperands [a.shape, b.shape, c.shape, this.shape] with
  | .error e => .error e
  | .ok p =>
    if p.reducingOpDims.length > 0 &&
       (this.id == a.id || this.id == b.id || this.id == c.id) then
      .error .aliasedOutput
    else .ok (.tensorOp p)

/-- `TensorView::DoQuaternaryOpOf`: negotiate, aliasing check against the
four inputs, generic kernel. -/
def doQuaternaryOpOf (this a b c d : TView) (op redOp : EWOp) : Except TVErr KernelDispatch :=
  match prepareTensorOperands [a.shape, b.shape, c.shape, d.shape, this.shape] with
  | .error e => .error e
  | .ok p =>
    if p.reducingOpDims.length > 0 &&
       (this.id == a.id || this.id == b.id || this.id == c.id || this.id == d.id) then
      .error .aliasedOutput
    else .ok (.tensorOp p)

/-- `TensorView::DoArgReductionOpOf`: negotiate, aliasing check, then the
argument-reduction kernel. -/
def doArgReductionOpOf (this a : TView) (redOp : EWOp) : Except TVErr KernelDispatch :=
  match prepareTensorOperands [a.shape, this.shape] with
  | .error e => .error e
  | .ok p =>
    if p.reducingOpDims.length > 0 && this.id == a.id then .error .aliasedOutput
    else .ok (.tensorArgOp p)

/-- Storage-object class: dense or sparse matrix. -/
inductive MatrixKind where
  | dense
  | sparse
deriving Repr, DecidableEq

/-- The storage object (Matrix) facts `AsMatrix` consults: its natural 2D
extents and its data class. -/
structure SOB where
  rows : Nat
  cols : Nat
  kind : MatrixKind
deriving Repr, DecidableEq

/-- What `AsMatrix` returns: the storage object unmodified, a column slice
of a dense storage reshaped to the view's 2D extents, or a column slice of a
sparse storage. -/
inductive AsMatrixRes where
  | original
  | denseSlice (firstElement numElements rows cols : Nat)
  | sparseSlice (firstColumn numColumns : Nat)
deriving Repr, DecidableEq

/-- `TensorView::AsMatrix`: reinterpret a rank-≤2 view over a storage object
as a 2D matrix.  Fails for rank > 2, for a strided first axis, for any
sparse reinterpretation classified as reshaping, and for a sparse slice not
aligned to the storage row count. -/
def asMatrix (sob : SOB) (s : TensorShape) : Except TVErr AsMatrixRes :=
  if s.rank > 2 then .error .tooManyAxes
  else
    let shape0 := if s.rank > 0 then s.dim 0 else 1
    let shape1 := if s.rank > 1 then s.dim 1 else 1
    if s.rank > 0 && s.stride 0 != 1 && shape0 != 1 then .error .notDense
    else
      let viewElements := s.numElements
      let needsSlicing := viewElements != sob.rows * sob.cols
      let needsReshaping := shape0 != sob.rows || shape1 != sob.cols
      if !needsSlicing && !needsReshaping then .ok .original
      else if sob.kind == .sparse then
        if needsReshaping then .error .sparseNotSupported
        else
          let firstColumn := s.offset / sob.rows
          let numColumns := viewElements / sob.rows
          if firstColumn * sob.rows != s.offset || numColumns * sob.rows != viewElements then
            .error .notColumnAligned
          else .ok (.sparseSlice firstColumn numColumns)
      else .ok (.denseSlice s.offset viewElements shape0 shape1)

/-- Contiguity of the axis group whose inner boundaries are `lo ≤ k < hi`:
each axis in the group continues the previous one without a stride gap. -/
def groupContiguous (s : TensorShape) (lo hi : Nat) : Bool :=
  (List.range' lo (hi - lo)).all (fun k =>
    s.stride k == s.stride (k - 1) * (s.dim (k - 1) : Int))

/-- Product of the extents on axes `lo ≤ k < hi`. -/
def prodRange (s : TensorShape) (lo hi : Nat) : Nat :=
  ((s.dims.drop lo).take (hi - lo)).foldl (· * ·) 1

/-- Modelled from the spec: `TensorShape::FlattenTo2DInPlace` is not part of
the given source.  Flattens a tensor to 2D with `splitPoint` the first axis
of the second dimension; per spec §4.3 "each flatten requires the two
resulting axis-groups be independently dense/contiguous, else fails".  The
flattened axes keep the base stride of their group (empty groups become unit
axes). -/
def flattenTo2D (s : TensorShape) (splitPoint : Nat) : Except TVErr TensorShape :=
  if groupContiguous s 1 splitPoint && groupContiguous s (splitPoint + 1) s.rank then
    .ok { dims := [prodRange s 0 splitPoint, prodRange s splitPoint s.rank]
          strides := [s.strides.headD 1, s.strides.getD splitPoint 1]
          offset := s.offset }
  else .error .flattenNotDense

/-- `static void FlattenToMatrix`: for a transposed operand the split point
counts from the other end. -/
def flattenToMatrix (s : TensorShape) (trans : Bool) (splitPoint : Nat) :
    Except TVErr TensorShape :=
  let splitPoint := if trans then s.rank - splitPoint else splitPoint
  flattenTo2D s splitPoint

/-- The rank-arithmetic gate of `DoMatrixProductOf` (lines 518-523): the
rank surplus `rank(A)+rank(B)-rank(C)` must be non-negative and even and
equals twice the number of reduced axes per side. -/
def matrixProductRankCheck (rankA rankB rankC : Nat) : Except TVErr Nat :=
  if rankA + rankB < rankC then .error .ranksDontMatch
  else
    let removedDims := rankA + rankB - rankC
    let numReducedDims := removedDims / 2
    if numReducedDims * 2 != removedDims then .error .ranksMismatch
    else .ok numReducedDims

/-- A view handed to the matrix bridge: its storage object and shape. -/
structure MView where
  sob : SOB
  shape : TensorShape
deriving Repr, DecidableEq

/-- Index `shapeX[transX]` with a C++ bool used as 0/1. -/
def boolIdx (t : Bool) : Nat := if t then 1 else 0

/-- The GEMM-primitive invocation produced by `DoMatrixProductOf`:
`MultiplyAndWeightedAdd(alpha, first, tFirst, second, tSecond, beta, out)`. -/
inductive MPCall where
  | gemmCall (first : AsMatrixRes) (tFirst : Bool) (second : AsMatrixRes) (tSecond : Bool)
             (out : AsMatrixRes)
deriving Repr, DecidableEq

/-- `TensorView::DoMatrixProductOf`: row-vector adjustment for a rank-1 A,
rank arithmetic, flattening of all three tensors to 2D around the reduction
boundary, flattened-dimension agreement, conversion to matrices, and the
final GEMM call — with operands swapped and transpose flags flipped when the
output itself is requested transposed. -/
def doMatrixProductOf (c : MView) (transC : Bool) (a : MView) (transA : Bool)
    (b : MView) (transB : Bool) : Except TVErr MPCall := do
  let shapeA := a.shape
  let shapeB := b.shape
  let shapeC := c.shape
  let transA := if shapeA.rank == 1 then decide (shapeB.rank > 0) else transA
  let numReducedDims ← matrixProductRankCheck shapeA.rank shapeB.rank shapeC.rank
  let firstReducedDim := shapeA.rank - numReducedDims
  let shapeA2 ← flattenToMatrix shapeA transA firstReducedDim
  let shapeB2 ← flattenToMatrix shapeB transB numReducedDims
  let shapeC2 ← flattenToMatrix shapeC transC firstReducedDim
  if shapeA2.dim (boolIdx transA) != shapeC2.dim (boolIdx transC) ||
     shapeB2.dim (1 - boolIdx transB) != shapeC2.dim (1 - boolIdx transC) ||
     shapeA2.dim (1 - boolIdx transA) != shapeB2.dim (boolIdx transB) then
    throw .flattenedDimsMismatch
  let A ← asMatrix a.sob shapeA2
  let B ← asMatrix b.sob shapeB2
  let C ← asMatrix c.sob shapeC2
  if !transC then
    pure (.gemmCall A transA B transB C)
  else
    pure (.gemmCall B (!transB) A (!transA) C)

/-- `static bool CanGatherScatterBatch`: the batched shape must not be a
scalar (hard error); the fast path is classified by: the splice axis is the
last axis of the batched shape, the first item is dense, the first item's
1-padded extents — multiplied by the arity on the splice axis — match the
batched extents, and every further item has the first item's extents and is
dense.  The item array of the C++ caller is nonempty, so it is passed as a
head element plus a tail list. -/
def canGatherScatterBatch (m_shape : TensorShape) (item0 : TensorShape)
    (rest : List TensorShape) (axis : Nat) : Except TVErr Bool :=
  let arity := 1 + rest.length
  if m_shape.rank == 0 then .error .scalarGatherScatter
  else
    let outRank := m_shape.rank
    let canGather :=
      (axis == outRank - 1) && item0.isDense &&
      (List.range outRank).all (fun k =>
        let d := if k < item0.rank then item0.dim k else 1
        let d := if k == axis then d * arity else d
        d == m_shape.dim k) &&
      rest.all (fun sj => sj.dims == item0.dims && sj.isDense)
    .ok canGather

/-- The write plan produced by `DoScatterBatchOf`: either one bulk
`ScatterBatch` kernel call, or one sliced copy per output (with the per-item
extent along the splice axis). -/
inductive ScatterPlan where
  | bulk (numRows arity : Nat)
  | perItem (sliceHeights : List Nat)
deriving Repr, DecidableEq

/-- `TensorView::DoScatterBatchOf`: classify against the outputs; on the
fast path issue one bulk kernel call, otherwise copy slice by slice.  An
error means the call failed before any output view was modified. -/
def doScatterBatchOf (this : TensorShape) (out0 : TensorShape)
    (rest : List TensorShape) (axis : Nat) : Except TVErr ScatterPlan := do
  let can ← canGatherScatterBatch this out0 rest axis
  if can then
    if this.rank == 0 then throw .scalarGatherScatter
    else pure (.bulk (this.numElements / this.dims.getLastD 1) (1 + rest.length))
  else
    pure (.perItem ((out0 :: rest).map (fun s =>
      if axis < s.rank then s.dim axis else 1)))

/-- Transpose flag application, `op(X)` of the GEMM contract. -/
def applyTrans {m : ℕ} (t : Bool) (M : Matrix (Fin m) (Fin m) ℚ) :
    Matrix (Fin m) (Fin m) ℚ :=
  if t then M.transpose else M

/-- Semantics of the GEMM primitive `Matrix::MultiplyAndWeightedAdd`:
`C := beta*C + alpha * op(A) * op(B)`. -/
def multiplyAndWeightedAdd {m : ℕ} (alpha : ℚ) (A : Matrix (Fin m) (Fin m) ℚ) (tA : Bool)
    (B : Matrix (Fin m) (Fin m) ℚ) (tB : Bool) (beta : ℚ) (C : Matrix (Fin m) (Fin m) ℚ) :
    Matrix (Fin m) (Fin m) ℚ :=
  beta • C + alpha • (applyTrans tA A * applyTrans tB B)

/-- The final dispatch of `DoMatrixProductOf` (lines 543-546) in value
semantics: without a transposed output the primitive is invoked directly;
with a transposed output the operands are swapped and both transpose flags
flipped. -/
def gemmDispatch {m : ℕ} (transC : Bool) (alpha : ℚ) (A : Matrix (Fin m) (Fin m) ℚ)
    (tA : Bool) (B : Matrix (Fin m) (Fin m) ℚ) (tB : Bool) (beta : ℚ)
    (C : Matrix (Fin m) (Fin m) ℚ) : Matrix (Fin m) (Fin m) ℚ :=
  if !transC then multiplyAndWeightedAdd alpha A tA B tB beta C
  else multiplyAndWeightedAdd alpha B (!tB) A (!tA) beta C

/-- Spec-side definition for the refinement claim: a GEMM primitive with
direct transposed-output support.  The stored output holds the transpose of
the logical accumulator, so the primitive reads `C` transposed, applies
`beta*C + alpha*op(A)*op(B)`, and stores the transpose of the result. -/
def gemmTransposedOutputSpec {m : ℕ} (alpha : ℚ) (A : Matrix (Fin m) (Fin m) ℚ) (tA : Bool)
    (B : Matrix (Fin m) (Fin m) ℚ) (tB : Bool) (beta : ℚ) (C : Matrix (Fin m) (Fin m) ℚ) :
    Matrix (Fin m) (Fin m) ℚ :=
  (multiplyAndWeightedAdd alpha A tA B tB beta C.transpose).transpose

/-- For a rank-≤2 shape the element count is the product of the two
(1-padded) matrix extents used by `AsMatrix`. -/
theorem numElements_of_rank_le_two (s : TensorShape) (h : s.rank ≤ 2) :
    s.numElements = s.dim 0 * s.dim 1 := by
  rcases s with ⟨dims, strides, off⟩
  match dims with
  | [] => simp [TensorShape.numElements, TensorShape.dim]
  | [a] => simp [TensorShape.numElements, TensorShape.dim]
  | [a, b] => simp [TensorShape.numElements, TensorShape.dim, Nat.one_mul]
  | a :: b :: c :: rest => simp [TensorShape.rank] at h

/-- The 1-padded first matrix extent of `AsMatrix` coincides with `dim 0`
(whose out-of-range default is already 1). -/
theorem shape0_eq_dim (s : TensorShape) : (if s.rank > 0 then s.dim 0 else 1) = s.dim 0 := by
  rcases s with ⟨dims, strides, off⟩
  cases dims <;> simp [TensorShape.rank, TensorShape.dim]

/-- The 1-padded second matrix extent of `AsMatrix` coincides with `dim 1`. -/
theorem shape1_eq_dim (s : TensorShape) : (if s.rank > 1 then s.dim 1 else 1) = s.dim 1 := by
  rcases s with ⟨dims, strides, off⟩
  match dims with
  | [] => simp [TensorShape.rank, TensorShape.dim]
  | [a] => simp [TensorShape.rank, TensorShape.dim]
  | a :: b :: rest => simp [TensorShape.rank, TensorShape.dim]

/-- C5: when the output of `DoMatrixProductOf` is requested transposed, the
final dispatch invokes the GEMM primitive with the operands swapped (B
first, then A) and both operand transpose flags flipped, and this computes
exactly what a primitive with transposed-output support would compute (by
the identity `C' = A * B ↔ C = B' * A'`); without a transposed output the
primitive is invoked directly on A and B with their given flags. -/
theorem C5_transposed_output_rewrite {m : ℕ} (alpha : ℚ) (A : Matrix (Fin m) (Fin m) ℚ)
    (tA : Bool) (B : Matrix (Fin m) (Fin m) ℚ) (tB : Bool) (beta : ℚ)
    (C : Matrix (Fin m) (Fin m) ℚ) :
    gemmDispatch true alpha A tA B tB beta C =
      multiplyAndWeightedAdd alpha B (!tB) A (!tA) beta C ∧
    gemmDispatch true alpha A tA B tB beta C =
      gemmTransposedOutputSpec alpha A tA B tB beta C ∧
    gemmDispatch false alpha A tA B tB beta C =
      multiplyAndWeightedAdd alpha A tA B tB beta C := by
  refine ⟨rfl, ?_, rfl⟩
  cases tA <;> cases tB <;>
    simp [gemmDispatch, gemmTransposedOutputSpec, multiplyAndWeightedAdd, applyTrans,
          Matrix.transpose_add, Matrix.transpose_smul, Matrix.transpose_mul,
          Matrix.transpose_transpose]

/-- C9: a `DoScatterBatchOf` call whose batched input (`this`) has rank 0
fails with an invalid-argument error (raised inside the batch classifier)
before any write plan is produced, i.e. before any output view is
modified. -/
theorem C9_scatter_scalar_rejected (this' out0 : TensorShape) (rest : List TensorShape)
    (axis : Nat) (h : this'.rank = 0) :
    doScatterBatchOf this' out0 rest axis = .error .scalarGatherScatter ∧
    TVErr.severity .scalarGatherScatter = .invalidArgument := by
  refine ⟨?_, rfl⟩
  simp [doScatterBatchOf, canGatherScatterBatch, h, Bind.bind, Except.bind]

/-- Witness for C9 at a concrete rank-0 batched input. -/
theorem C9_scatter_scalar_rejected_witness :
    (TensorShape.rank ⟨[], [], 0⟩ = 0) ∧
    doScatterBatchOf ⟨[], [], 0⟩ ⟨[2], [1], 0⟩ [] 0 = .error .scalarGatherScatter :=
  ⟨rfl, (C9_scatter_scalar_rejected ⟨[], [], 0⟩ ⟨[2], [1], 0⟩ [] 0 rfl).1⟩


/-- C8 (code bug): for a sparse storage object, `AsMatrix` classifies every
view whose addressed region differs from the storage extents as "needs
reshaping" — matching 2D extents already force a matching element count —
so even a column-aligned slice (here 3 of 5 columns of a 4-row sparse
storage, offset 0) fails with the runtime error, although the code's own
comment ("Sparse matrices can be column-sliced; that's it.") and the spec
say the slice succeeds; the sparse column-slice success path and its
misalignment invalid-argument check are unreachable. -/
theorem C8_sparse_slice_bug :
    asMatrix ⟨4, 5, .sparse⟩ ⟨[4, 3], [1, 4], 0⟩ = .error .sparseNotSupported ∧
    TVErr.severity .sparseNotSupported = .runtimeError ∧
    (∀ (rows cols : Nat) (s : TensorShape) (fc nc : Nat),
      asMatrix ⟨rows, cols, .sparse⟩ s ≠ .ok (.sparseSlice fc nc) ∧
      asMatrix ⟨rows, cols, .sparse⟩ s ≠ .error .notColumnAligned) := by
  refine ⟨rfl, rfl, ?_⟩
  intro rows cols s fc nc
  constructor <;>
  · intro h
    simp only [asMatrix, shape0_eq_dim, shape1_eq_dim] at h
    split at h
    · exact absurd h (by simp)
    · split at h
      · exact absurd h (by simp)
      · split at h
        · exact absurd h (by simp)
        · split at h
          · split at h
            · exact absurd h (by simp)
            · rename_i hslice hkind hresh
              exfalso
              have hresh2 : s.dim 0 = rows ∧ s.dim 1 = cols := by
                simpa [not_or] using hresh
              have hnum : s.numElements = s.dim 0 * s.dim 1 := by
                apply numElements_of_rank_le_two
                rename_i hrank hstr
                omega
              apply hslice
              simp [hnum, hresh2.1, hresh2.2]
          · exact absurd h (by simp)

/-- C10 counterexample: a rank-3 view with strided non-unit first axis
satisfies the claim's three conditions, yet `AsMatrix` raises the
too-many-axes error, not the not-dense (stride) error. -/
theorem C10_rank3_counterexample :
    (1 ≤ TensorShape.rank ⟨[2, 2, 2], [3, 6, 12], 0⟩ ∧
     TensorShape.stride ⟨[2, 2, 2], [3, 6, 12], 0⟩ 0 ≠ 1 ∧
     TensorShape.dim ⟨[2, 2, 2], [3, 6, 12], 0⟩ 0 ≠ 1) ∧
    asMatrix ⟨4, 6, .dense⟩ ⟨[2, 2, 2], [3, 6, 12], 0⟩ ≠ .error .notDense := by
  refine ⟨by decide, ?_⟩
  rw [show asMatrix ⟨4, 6, .dense⟩ ⟨[2, 2, 2], [3, 6, 12], 0⟩ = .error .tooManyAxes from rfl]
  simp

/-- C10 (amended): `AsMatrix` raises its not-dense (stride) invalid-argument
error iff the view's rank is 1 or 2 (a rank above 2 fails earlier with the
rank error), its first-axis stride differs from 1 and its first-axis extent
differs from 1; a second-axis stride is never examined, so every rank-2 view
whose first axis has stride 1 passes the density check regardless of its
second-axis stride. -/
theorem C10_stride_check_iff (sob : SOB) (s : TensorShape) :
    (asMatrix sob s = .error .notDense ↔
      1 ≤ s.rank ∧ s.rank ≤ 2 ∧ s.stride 0 ≠ 1 ∧ s.dim 0 ≠ 1) ∧
    (s.rank = 2 → s.stride 0 = 1 → asMatrix sob s ≠ .error .notDense) := by
  have main : asMatrix sob s = .error .notDense ↔
      1 ≤ s.rank ∧ s.rank ≤ 2 ∧ s.stride 0 ≠ 1 ∧ s.dim 0 ≠ 1 := by
    constructor
    · intro h
      simp only [asMatrix, shape0_eq_dim, shape1_eq_dim] at h
      split at h
      · exact absurd h (by simp)
      · split at h
        · rename_i hrank hcond
          simp only [Bool.and_eq_true, decide_eq_true_eq, bne_iff_ne, ne_eq] at hcond
          exact ⟨by omega, by omega, hcond.1.2, hcond.2⟩
        · split at h
          · exact absurd h (by simp)
          · split at h
            · split at h
              · exact absurd h (by simp)
              · split at h
                · exact absurd h (by simp)
                · exact absurd h (by simp)
            · exact absurd h (by simp)
    · rintro ⟨h1, h2, h3, h4⟩
      have hcond : (decide (s.rank > 0) && s.stride 0 != 1 && s.dim 0 != 1) = true := by
        simp only [Bool.and_eq_true, bne_iff_ne, ne_eq, decide_eq_true_eq]
        exact ⟨⟨by omega, h3⟩, h4⟩
      simp only [asMatrix, shape0_eq_dim, shape1_eq_dim]
      rw [if_neg (by omega), if_pos hcond]
  exact ⟨main, fun hr h0 h => (main.mp h).2.2.1 h0⟩

/-- Witness for C10 at a rank-2 view with unit first-axis stride and a
gapped second-axis stride: it passes the density check. -/
theorem C10_stride_check_iff_witness :
    (TensorShape.rank ⟨[2, 2], [1, 7], 0⟩ = 2 ∧
     TensorShape.stride ⟨[2, 2], [1, 7], 0⟩ 0 = 1) ∧
    asMatrix ⟨4, 6, .dense⟩ ⟨[2, 2], [1, 7], 0⟩ ≠ .error .notDense :=
  ⟨⟨rfl, rfl⟩, (C10_stride_check_iff ⟨4, 6, .dense⟩ ⟨[2, 2], [1, 7], 0⟩).2 rfl rfl⟩

/-- C4 counterexample: the rank combination A rank 3, B rank 1, C rank 2
has an even, non-negative rank surplus (3+1-2 = 2), so `DoMatrixProductOf`
accepts it — here A = [2 x 3 x 4], B = [4], C = [6 x 1], all dense, which
flattens to [6 x 4] * [4 x 1] -> [6 x 1] and reaches the GEMM call — rather
than rejecting it as the claim states. -/
theorem C4_rank_example_not_rejected :
    (TensorShape.rank ⟨[2, 3, 4], [1, 2, 6], 0⟩ = 3 ∧
     TensorShape.rank ⟨[4], [1], 0⟩ = 1 ∧
     TensorShape.rank ⟨[6, 1], [1, 6], 0⟩ = 2) ∧
    doMatrixProductOf ⟨⟨6, 1, .dense⟩, ⟨[6, 1], [1, 6], 0⟩⟩ false
        ⟨⟨6, 4, .dense⟩, ⟨[2, 3, 4], [1, 2, 6], 0⟩⟩ false
        ⟨⟨4, 1, .dense⟩, ⟨[4], [1], 0⟩⟩ false =
      .ok (.gemmCall .original false .original false .original) :=
  ⟨⟨rfl, rfl, rfl⟩, rfl⟩

/-- C4 (amended): `DoMatrixProductOf` fails with an invalid-argument error
whenever rank(A) + rank(B) - rank(C) is negative or odd, and otherwise
passes the rank gate with numReducedDims = (rank(A)+rank(B)-rank(C))/2
reduced axes on each side; the combination A rank 3, B rank 1, C rank 2
passes the gate with one reduced axis per side (it is not rejected). -/
theorem C4_rank_arithmetic :
    (∀ ra rb rc : Nat, (∃ d, matrixProductRankCheck ra rb rc = .ok d) ↔
        (rc ≤ ra + rb ∧ (ra + rb - rc) % 2 = 0)) ∧
    (∀ ra rb rc d : Nat, matrixProductRankCheck ra rb rc = .ok d → d = (ra + rb - rc) / 2) ∧
    (∀ ra rb rc : Nat, ¬(rc ≤ ra + rb ∧ (ra + rb - rc) % 2 = 0) →
        ∃ e, matrixProductRankCheck ra rb rc = .error e ∧ e.severity = .invalidArgument) ∧
    matrixProductRankCheck 3 1 2 = .ok 1 ∧
    (∀ (c a b : MView) (tC tA tB : Bool) (e : TVErr),
        matrixProductRankCheck a.shape.rank b.shape.rank c.shape.rank = .error e →
        doMatrixProductOf c tC a tA b tB = .error e) := by
  have hchar : ∀ ra rb rc : Nat,
      matrixProductRankCheck ra rb rc =
        if ra + rb < rc then .error .ranksDontMatch
        else if (ra + rb - rc) / 2 * 2 ≠ ra + rb - rc then .error .ranksMismatch
        else .ok ((ra + rb - rc) / 2) := by
    intro ra rb rc
    simp only [matrixProductRankCheck, bne_iff_ne, ne_eq]
  refine ⟨?_, ?_, ?_, rfl, ?_⟩
  · intro ra rb rc
    rw [hchar]
    constructor
    · rintro ⟨d, hd⟩
      split at hd
      · exact absurd hd (by simp)
      · split at hd
        · exact absurd hd (by simp)
        · rename_i h1 h2
          exact ⟨by omega, by omega⟩
    · rintro ⟨h1, h2⟩
      refine ⟨(ra + rb - rc) / 2, ?_⟩
      rw [if_neg (by omega), if_neg (by omega)]
  · intro ra rb rc d hd
    rw [hchar] at hd
    split at hd
    · exact absurd hd (by simp)
    · split at hd
      · exact absurd hd (by simp)
      · exact (Except.ok.inj hd).symm
  · intro ra rb rc h
    rw [hchar]
    by_cases h1 : ra + rb < rc
    · exact ⟨.ranksDontMatch, by rw [if_pos h1]; exact ⟨rfl, rfl⟩⟩
    · refine ⟨.ranksMismatch, ?_, rfl⟩
      rw [if_neg h1, if_pos (by omega)]
  · intro c a b tC tA tB e he
    simp only [doMatrixProductOf, he, Bind.bind, Except.bind]

/-- Witness for C4: a square GEMM passes the gate with one reduced axis per
side, and an odd rank surplus is rejected with an invalid argument. -/
theorem C4_rank_arithmetic_witness :
    (matrixProductRankCheck 2 2 2 = .ok 1 ∧ (1 : Nat) = (2 + 2 - 2) / 2) ∧
    (∃ e, matrixProductRankCheck 3 1 1 = .error e ∧ e.severity = .invalidArgument) :=
  ⟨⟨rfl, C4_rank_arithmetic.2.1 2 2 2 1 rfl⟩,
   C4_rank_arithmetic.2.2.1 3 1 1 (by decide)⟩

/-- C1: in every unary, binary, ternary, quaternary and argument-reduction
dispatch, if the negotiated shape has at least one reducing axis and the
output view is the same object as some input view, the operation fails with
the fatal logic error of `CheckDifferentObject`; if no axis is reducing, the
dispatch always proceeds to a kernel call (so an output equal to an input is
permitted). -/
theorem C1_reducing_alias_check :
    TVErr.severity .aliasedOutput = .logicError ∧
    (∀ (this' a : TView) (op redOp : EWOp) (p : PreparedOperands),
      prepareTensorOperands [a.shape, this'.shape] = .ok p →
      (p.reducingOpDims ≠ [] → this'.id = a.id →
        doUnaryOpOf this' a op redOp = .error .aliasedOutput) ∧
      (p.reducingOpDims = [] → ∃ d, doUnaryOpOf this' a op redOp = .ok d)) ∧
    (∀ (this' a b : TView) (op redOp : EWOp) (p : PreparedOperands),
      prepareTensorOperands [a.shape, b.shape, this'.shape] = .ok p →
      (p.reducingOpDims ≠ [] → (this'.id = a.id ∨ this'.id = b.id) →
        doBinaryOpOf this' a b op redOp = .error .aliasedOutput) ∧
      (p.reducingOpDims = [] → ∃ d, doBinaryOpOf this' a b op redOp = .ok d)) ∧
    (∀ (this' a b c : TView) (op redOp : EWOp) (p : PreparedOperands),
      prepareTensorOperands [a.shape, b.shape, c.shape, this'.shape] = .ok p →
      (p.reducingOpDims ≠ [] → (this'.id = a.id ∨ this'.id = b.id ∨ this'.id = c.id) →
        doTernaryOpOf this' a b c op redOp = .error .aliasedOutput) ∧
      (p.reducingOpDims = [] → ∃ d, doTernaryOpOf this' a b c op redOp = .ok d)) ∧
    (∀ (this' a b c d : TView) (op redOp : EWOp) (p : PreparedOperands),
      prepareTensorOperands [a.shape, b.shape, c.shape, d.shape, this'.shape] = .ok p →
      (p.reducingOpDims ≠ [] →
        (this'.id = a.id ∨ this'.id = b.id ∨ this'.id = c.id ∨ this'.id = d.id) →
        doQuaternaryOpOf this' a b c d op redOp = .error .aliasedOutput) ∧
      (p.reducingOpDims = [] → ∃ r, doQuaternaryOpOf this' a b c d op redOp = .ok r)) ∧
    (∀ (this' a : TView) (redOp : EWOp) (p : PreparedOperands),
      prepareTensorOperands [a.shape, this'.shape] = .ok p →
      (p.reducingOpDims ≠ [] → this'.id = a.id →
        doArgReductionOpOf this' a redOp = .error .aliasedOutput) ∧
      (p.reducingOpDims = [] → ∃ d, doArgReductionOpOf this' a redOp = .ok d)) := by
  refine ⟨rfl, ?_, ?_, ?_, ?_, ?_⟩
  · intro this' a op redOp p hp
    constructor
    · intro hred hid
      simp [doUnaryOpOf, hp, hid, List.length_pos.mpr hred]
    · intro hred
      refine ⟨.tensorOp p, ?_⟩
      simp [doUnaryOpOf, hp, hred]
  · intro this' a b op redOp p hp
    constructor
    · intro hred hid
      rcases hid with h | h <;>
        simp [doBinaryOpOf, hp, h, List.length_pos.mpr hred]
    · intro hred
      have hcond : (decide (p.reducingOpDims.length > 0) &&
          (this'.id == a.id || this'.id == b.id)) = false := by
        simp [hred]
      simp only [doBinaryOpOf, hp, hcond, Bool.false_eq_true, if_false]
      split
      · exact ⟨_, rfl⟩
      · split
        · exact ⟨_, rfl⟩
        · exact ⟨_, rfl⟩
  · intro this' a b c op redOp p hp
    constructor
    · intro hred hid
      rcases hid with h | h | h <;>
        simp [doTernaryOpOf, hp, h, List.length_pos.mpr hred]
    · intro hred
      refine ⟨.tensorOp p, ?_⟩
      simp [doTernaryOpOf, hp, hred]
  · intro this' a b c d op redOp p hp
    constructor
    · intro hred hid
      rcases hid with h | h | h | h <;>
        simp [doQuaternaryOpOf, hp, h, List.length_pos.mpr hred]
    · intro hred
      refine ⟨.tensorOp p, ?_⟩
      simp [doQuaternaryOpOf, hp, hred]
  · intro this' a redOp p hp
    constructor
    · intro hred hid
      simp [doArgReductionOpOf, hp, hid, List.length_pos.mpr hred]
    · intro hred
      refine ⟨.tensorArgOp p, ?_⟩
      simp [doArgReductionOpOf, hp, hred]

/-- Witness for C1: a reducing unary op whose output view is the input view
fails with the logic error, and the same aliased views with no reducing axis
proceed. -/
theorem C1_reducing_alias_check_witness :
    doUnaryOpOf ⟨0, ⟨[1], [1], 0⟩⟩ ⟨0, ⟨[3], [1], 0⟩⟩ .opCopy .opSum = .error .aliasedOutput ∧
    (∃ d, doUnaryOpOf ⟨0, ⟨[3], [1], 0⟩⟩ ⟨0, ⟨[3], [1], 0⟩⟩ .opCopy .opCopy = .ok d) := by
  constructor
  · exact (C1_reducing_alias_check.2.1 ⟨0, ⟨[1], [1], 0⟩⟩ ⟨0, ⟨[3], [1], 0⟩⟩ .opCopy .opSum
      ⟨[0, 0], [], [[], []], [3], [[1], [0]]⟩ rfl).1 (by simp) rfl
  · exact (C1_reducing_alias_check.2.1 ⟨0, ⟨[3], [1], 0⟩⟩ ⟨0, ⟨[3], [1], 0⟩⟩ .opCopy .opCopy
      ⟨[0, 0], [3], [[1], [1]], [], [[], []]⟩ rfl).2 rfl

/-- C7: in a binary multiply+sum dispatch, if the negotiated shape has
exactly one reducing axis with unit stride on both inputs and zero stride on
the output, and the remaining regular axis (if any) is contiguous and
consistent across all three operands (input strides equal to the reduced
count, output stride 1), then the dispatch reshapes both inputs to a
[reducedCount x remainingCount] matrix and issues a batched columnwise inner
product into a [1 x remainingCount] output instead of the generic kernel;
in particular A = B = [13 x 3 x 42 x 5] summed into [1 x 1 x 42 x 5] is
recognized and reshaped to [39 x 210] inputs with a [1 x 210] output. -/
theorem C7_dot_product_pattern :
    (∀ (this' a b : TView) (p : PreparedOperands) (red : Nat),
      prepareTensorOperands [a.shape, b.shape, this'.shape] = .ok p →
      p.reducingOpDims = [red] →
      p.reducingStrides = [[1], [1], [0]] →
      (p.regularOpDims = [] ∨
        ∃ rem, p.regularOpDims = [rem] ∧
          p.regularStrides = [[(red : Int)], [(red : Int)], [1]]) →
      this'.id ≠ a.id → this'.id ≠ b.id →
      doBinaryOpOf this' a b .opElementwiseProduct .opSum =
        .ok (.innerProduct
          [a.shape.numElements / this'.shape.numElements, this'.shape.numElements]
          [1, this'.shape.numElements])) ∧
    doBinaryOpOf ⟨3, ⟨[1, 1, 42, 5], [1, 1, 1, 42], 0⟩⟩
        ⟨1, ⟨[13, 3, 42, 5], [1, 13, 39, 1638], 0⟩⟩
        ⟨2, ⟨[13, 3, 42, 5], [1, 13, 39, 1638], 0⟩⟩ .opElementwiseProduct .opSum =
      .ok (.innerProduct [39, 210] [1, 210]) := by
  constructor
  · intro this' a b p red hp hred hrstr hreg hna hnb
    have hdot : isDotProduct p = true := by
      rcases hreg with hreg | ⟨rem, hregd, hregs⟩
      · simp [isDotProduct, hred, hrstr, hreg]
      · simp [isDotProduct, hred, hrstr, hregd, hregs]
    have h1 : (this'.id == a.id) = false := beq_eq_false_iff_ne.mpr hna
    have h2 : (this'.id == b.id) = false := beq_eq_false_iff_ne.mpr hnb
    have hcond : (decide (p.reducingOpDims.length > 0) &&
        (this'.id == a.id || this'.id == b.id)) = false := by
      simp [h1, h2]
    simp [doBinaryOpOf, hp, hcond, hdot]
  · rfl

/-- Witness for C7: the example negotiation is applied through the general
statement, with all hypotheses discharged on the concrete negotiated
operands. -/
theorem C7_dot_product_pattern_witness :
    doBinaryOpOf ⟨3, ⟨[1, 1, 42, 5], [1, 1, 1, 42], 0⟩⟩
        ⟨1, ⟨[13, 3, 42, 5], [1, 13, 39, 1638], 0⟩⟩
        ⟨2, ⟨[13, 3, 42, 5], [1, 13, 39, 1638], 0⟩⟩ .opElementwiseProduct .opSum =
      .ok (.innerProduct
        [TensorShape.numElements ⟨[13, 3, 42, 5], [1, 13, 39, 1638], 0⟩ /
            TensorShape.numElements ⟨[1, 1, 42, 5], [1, 1, 1, 42], 0⟩,
          TensorShape.numElements ⟨[1, 1, 42, 5], [1, 1, 1, 42], 0⟩]
        [1, TensorShape.numElements ⟨[1, 1, 42, 5], [1, 1, 1, 42], 0⟩]) :=
  C7_dot_product_pattern.1 ⟨3, ⟨[1, 1, 42, 5], [1, 1, 1, 42], 0⟩⟩
    ⟨1, ⟨[13, 3, 42, 5], [1, 13, 39, 1638], 0⟩⟩
    ⟨2, ⟨[13, 3, 42, 5], [1, 13, 39, 1638], 0⟩⟩
    ⟨[0, 0, 0], [210], [[39], [39], [1]], [39], [[1], [1], [0]]⟩ 39
    rfl rfl rfl (Or.inr ⟨210, rfl, rfl⟩) (by decide) (by decide)

/-- An item extent read through 1-padding (extents beyond the item's rank
count as 1) coincides with `dim`, whose out-of-range default is 1. -/
theorem dim_padded (s : TensorShape) (k : Nat) :
    (if k < s.rank then s.dim k else 1) = s.dim k := by
  by_cases hk : k < s.rank
  · simp [hk]
  · simp only [hk, if_false]
    rw [TensorShape.dim, List.getD_eq_default]
    simpa [TensorShape.rank] using Nat.le_of_not_lt hk

/-- The batch-classifier condition exactly as claim C6 states it: splice
axis is the last outer axis, the first item is dense, every item 1-padded
matches the outer shape away from the splice axis, the outer splice extent
is arity times the item extent, and all items have identical extents. -/
def canBatchClaimSpec (outer item0 : TensorShape) (rest : List TensorShape) (axis : Nat) : Prop :=
  axis = outer.rank - 1 ∧
  item0.isDense = true ∧
  (∀ s ∈ item0 :: rest, ∀ k < outer.rank, k ≠ axis → s.dim k = outer.dim k) ∧
  outer.dim axis = (1 + rest.length) * item0.dim axis ∧
  (∀ s ∈ rest, s.dims = item0.dims)

/-- The amended batch-classifier condition: as the claim states it, but
requiring every item (not only the first) to be dense. -/
def canBatchAmendedSpec (outer item0 : TensorShape) (rest : List TensorShape) (axis : Nat) : Prop :=
  axis = outer.rank - 1 ∧
  (∀ s ∈ item0 :: rest, s.isDense = true) ∧
  (∀ s ∈ rest, s.dims = item0.dims) ∧
  (∀ k < outer.rank, k ≠ axis → item0.dim k = outer.dim k) ∧
  outer.dim axis = (1 + rest.length) * item0.dim axis

instance (outer item0 : TensorShape) (rest : List TensorShape) (axis : Nat) :
    Decidable (canBatchClaimSpec outer item0 rest axis) := by
  unfold canBatchClaimSpec; infer_instance

instance (outer item0 : TensorShape) (rest : List TensorShape) (axis : Nat) :
    Decidable (canBatchAmendedSpec outer item0 rest axis) := by
  unfold canBatchAmendedSpec; infer_instance

/-- C6 counterexample: two items of identical extents, the first dense, the
second non-dense (stride 2); the claim's conditions all hold, yet the
classifier returns false because it also requires every item to be dense. -/
theorem C6_classifier_counterexample :
    canBatchClaimSpec ⟨[4], [1], 0⟩ ⟨[2], [1], 0⟩ [⟨[2], [2], 0⟩] 0 ∧
    canGatherScatterBatch ⟨[4], [1], 0⟩ ⟨[2], [1], 0⟩ [⟨[2], [2], 0⟩] 0 = .ok false :=
  ⟨by decide, rfl⟩

/-- C6 (amended): for a non-scalar batched shape, the classifier returns
true iff the splice axis is the last outer axis, every item is dense, all
items share identical extents, the first item's 1-padded extents match the
outer extents away from the splice axis, and the outer splice extent is
arity times the item splice extent.  (Item axes beyond the splice axis do
not exist: the splice axis is the last outer axis.) -/
theorem C6_classifier_iff (outer item0 : TensorShape) (rest : List TensorShape) (axis : Nat)
    (h : 1 ≤ outer.rank) :
    canGatherScatterBatch outer item0 rest axis = .ok true ↔
      canBatchAmendedSpec outer item0 rest axis := by
  have h0 : (outer.rank == 0) = false := by
    simp only [beq_eq_false_iff_ne, ne_eq]
    omega
  simp only [canGatherScatterBatch, h0, Bool.false_eq_true, if_false, Except.ok.injEq]
  simp only [Bool.and_eq_true, List.all_eq_true, List.mem_range, beq_iff_eq, dim_padded]
  constructor
  · rintro ⟨⟨⟨hax, hdense0⟩, hloop⟩, hrest⟩
    have haxlt : axis < outer.rank := by omega
    refine ⟨hax, ?_, ?_, ?_, ?_⟩
    · intro s hs
      rcases List.mem_cons.mp hs with hs | hs
      · subst hs; exact hdense0
      · exact ((hrest s hs).2 : _)
    · intro s hs
      exact (hrest s hs).1
    · intro k hk hne
      have hk2 := hloop k hk
      rw [if_neg (by simpa using hne)] at hk2
      exact hk2
    · have hk2 := hloop axis haxlt
      rw [if_pos (by simp)] at hk2
      rw [← hk2]
      ring
  · rintro ⟨hax, hdense, hdims, hmatch, haxdim⟩
    have haxlt : axis < outer.rank := by omega
    refine ⟨⟨⟨hax, ?_⟩, ?_⟩, ?_⟩
    · exact hdense item0 (List.mem_cons_self item0 rest)
    · intro k hk
      by_cases hke : k = axis
      · subst hke
        rw [if_pos (by simp)]
        rw [haxdim]
        ring
      · rw [if_neg (by simpa using hke)]
        exact hmatch k hk hke
    · intro s hs
      exact ⟨hdims s hs, hdense s (List.mem_cons_of_mem item0 hs)⟩

/-- Witness for C6 at an outer shape [4] spliced from two dense [2] items. -/
theorem C6_classifier_iff_witness :
    1 ≤ TensorShape.rank ⟨[4], [1], 0⟩ ∧
    canGatherScatterBatch ⟨[4], [1], 0⟩ ⟨[2], [1], 0⟩ [⟨[2], [1], 0⟩] 0 = .ok true :=
  ⟨by decide,
   (C6_classifier_iff ⟨[4], [1], 0⟩ ⟨[2], [1], 0⟩ [⟨[2], [1], 0⟩] 0 (by decide)).mpr (by decide)⟩

/-- The default-last element of a nonempty list is a member. -/
theorem getLastD_mem {α : Type} (l : List α) (d : α) (h : l ≠ []) : l.getLastD d ∈ l := by
  induction l generalizing d with
  | nil => exact absurd rfl h
  | cons x xs ih =>
    cases xs with
    | nil => simp
    | cons y ys => simpa using Or.inr (ih y (by simp))

/-- Reading a list through in-range `getD` indices reproduces mapping over
the list. -/
theorem range_map_getD {α β : Type} (l : List α) (d : α) (f : α → β) :
    (List.range l.length).map (fun k => f (l.getD k d)) = l.map f := by
  induction l with
  | nil => simp
  | cons x xs ih =>
    rw [List.length_cons, List.range_succ_eq_map, List.map_cons, List.map_map]
    rw [show ((fun k => f ((x :: xs).getD k d)) ∘ Nat.succ) = (fun k => f (xs.getD k d))
        from funext (fun k => by simp), ih]
    rfl

/-- `DropDims` with the mask "extent equals 1" keeps exactly the entries
whose paired extent differs from 1. -/
theorem dropByMask_beq_filterMap {α : Type} (ds : List Nat) :
    ∀ xs : List α, xs.length = ds.length →
    TensorShape.dropByMask (ds.map (· == 1)) xs =
      (xs.zip ds).filterMap (fun p => if p.2 = 1 then none else some p.1) := by
  induction ds with
  | nil => intro xs h; cases xs <;> simp_all [TensorShape.dropByMask]
  | cons d ds ih =>
    intro xs h
    cases xs with
    | nil => simp at h
    | cons x xs =>
      by_cases hd : d = 1
      · simp [hd, TensorShape.dropByMask, ih xs (by simpa using h)]
      · have hbf : (d == 1) = false := beq_eq_false_iff_ne.mpr hd
        simp [hbf, hd, TensorShape.dropByMask, ih xs (by simpa using h)]

/-- `DropDims` with the complemented mask keeps exactly the entries whose
paired extent equals 1. -/
theorem dropByMask_not_beq_filterMap {α : Type} (ds : List Nat) :
    ∀ xs : List α, xs.length = ds.length →
    TensorShape.dropByMask ((ds.map (· == 1)).map (!·)) xs =
      (xs.zip ds).filterMap (fun p => if p.2 = 1 then some p.1 else none) := by
  induction ds with
  | nil => intro xs h; cases xs <;> simp_all [TensorShape.dropByMask]
  | cons d ds ih =>
    intro xs h
    cases xs with
    | nil => simp at h
    | cons x xs =>
      have ih2 := ih xs (by simpa using h)
      rw [List.map_map] at ih2
      by_cases hd : d = 1
      · simp [hd, TensorShape.dropByMask, ih2]
      · have hbf : (d == 1) = false := beq_eq_false_iff_ne.mpr hd
        simp [hbf, hd, TensorShape.dropByMask, ih2]

/-- If no paired extent equals 1, the reducing selection is empty. -/
theorem filterMap_zip_eq_nil {α : Type} (xs : List α) (ds : List Nat)
    (h : ∀ d ∈ ds, d ≠ 1) :
    (xs.zip ds).filterMap (fun p => if p.2 = 1 then some p.1 else none) = [] := by
  rw [List.filterMap_eq_nil_iff]
  intro p hp
  have hd := (List.of_mem_zip hp).2
  simp [h p.2 hd]

/-- If no paired extent equals 1, the regular selection is the whole
sequence. -/
theorem filterMap_zip_eq_self {α : Type} (ds : List Nat) :
    ∀ xs : List α, xs.length = ds.length → (∀ d ∈ ds, d ≠ 1) →
    (xs.zip ds).filterMap (fun p => if p.2 = 1 then none else some p.1) = xs := by
  induction ds with
  | nil => intro xs h _; cases xs <;> simp_all
  | cons d ds ih =>
    intro xs h hall
    cases xs with
    | nil => simp at h
    | cons x xs =>
      have hd : d ≠ 1 := hall d (by simp)
      simp [hd, ih xs (by simpa using h) (fun e he => hall e (by simp [he]))]

/-- C3: after flattening and unit-axis elimination, the split stage of
`PrepareTensorOperands` classifies an axis as reducing exactly when the last
participant (the output) has extent 1 there: the reducing extents/strides
are the positions where the output extent is 1 and the regular
extents/strides are the complementary positions; and when no axis is
reducing, the reducing sequences are empty while the regular sequences are
the full post-processing operation shape and per-participant strides. -/
theorem C3_regular_reducing_split (shapes : List TensorShape) (opDims : List Nat)
    (hne : shapes ≠ [])
    (hlen : ∀ s ∈ shapes, s.dims.length = opDims.length ∧ s.strides.length = opDims.length) :
    ((splitRegularReducing shapes opDims).reducingOpDims =
        (opDims.zip (shapes.getLastD default).dims).filterMap
          (fun p => if p.2 = 1 then some p.1 else none) ∧
      (splitRegularReducing shapes opDims).regularOpDims =
        (opDims.zip (shapes.getLastD default).dims).filterMap
          (fun p => if p.2 = 1 then none else some p.1) ∧
      (splitRegularReducing shapes opDims).reducingStrides =
        shapes.map (fun s => (s.strides.zip (shapes.getLastD default).dims).filterMap
          (fun p => if p.2 = 1 then some p.1 else none)) ∧
      (splitRegularReducing shapes opDims).regularStrides =
        shapes.map (fun s => (s.strides.zip (shapes.getLastD default).dims).filterMap
          (fun p => if p.2 = 1 then none else some p.1))) ∧
    ((∀ k < opDims.length, (shapes.getLastD default).dim k ≠ 1) →
      (splitRegularReducing shapes opDims).reducingOpDims = [] ∧
      (splitRegularReducing shapes opDims).reducingStrides = shapes.map (fun _ => []) ∧
      (splitRegularReducing shapes opDims).regularOpDims = opDims ∧
      (splitRegularReducing shapes opDims).regularStrides = shapes.map (·.strides)) := by
  have hlast : shapes.getLastD default ∈ shapes := getLastD_mem shapes default hne
  have hldim : (shapes.getLastD default).dims.length = opDims.length := (hlen _ hlast).1
  have hmask : (List.range opDims.length).map (fun k => (shapes.getLastD default).dim k == 1) =
      (shapes.getLastD default).dims.map (· == 1) := by
    rw [← hldim]
    exact range_map_getD _ 1 (fun d => d == 1)
  cases hb : ((shapes.getLastD default).dims.map (· == 1)).any id with
  | true =>
    have hb2 : ((List.range opDims.length).map
        (fun k => (shapes.getLastD default).dim k == 1)).any id = true := by
      rw [hmask]; exact hb
    have hsplit : splitRegularReducing shapes opDims =
        { regularOpDims := TensorShape.dropByMask
            ((shapes.getLastD default).dims.map (· == 1)) opDims
          regularStrides := shapes.map (fun s => TensorShape.dropByMask
            ((shapes.getLastD default).dims.map (· == 1)) s.strides)
          reducingOpDims := TensorShape.dropByMask
            (((shapes.getLastD default).dims.map (· == 1)).map (!·)) opDims
          reducingStrides := shapes.map (fun s => TensorShape.dropByMask
            (((shapes.getLastD default).dims.map (· == 1)).map (!·)) s.strides) } := by
      simp only [splitRegularReducing, TensorShape.dropDims]
      rw [if_pos hb2, hmask]
    constructor
    · refine ⟨?_, ?_, ?_, ?_⟩
      · rw [hsplit]
        exact dropByMask_not_beq_filterMap _ opDims hldim.symm
      · rw [hsplit]
        exact dropByMask_beq_filterMap _ opDims hldim.symm
      · rw [hsplit]
        refine List.map_congr_left (fun s hs => ?_)
        exact dropByMask_not_beq_filterMap _ s.strides (((hlen s hs).2).trans hldim.symm)
      · rw [hsplit]
        refine List.map_congr_left (fun s hs => ?_)
        exact dropByMask_beq_filterMap _ s.strides (((hlen s hs).2).trans hldim.symm)
    · intro hnone
      exfalso
      rcases List.any_eq_true.mp hb with ⟨x, hx, hid⟩
      rcases List.mem_map.mp hx with ⟨e, he, hbeq⟩
      rcases List.mem_iff_getElem.mp he with ⟨j, hj, hje⟩
      have hj2 : j < opDims.length := by omega
      apply hnone j hj2
      have : (e == 1) = true := by rw [hbeq]; exact hid
      have he1 : e = 1 := by simpa using this
      rw [TensorShape.dim, List.getD_eq_getElem _ _ hj, hje, he1]
  | false =>
    have hb2 : ((List.range opDims.length).map
        (fun k => (shapes.getLastD default).dim k == 1)).any id = false := by
      rw [hmask]; exact hb
    have hall : ∀ e ∈ (shapes.getLastD default).dims, e ≠ 1 := by
      intro e he h1
      have : ((shapes.getLastD default).dims.map (· == 1)).any id = true := by
        refine List.any_eq_true.mpr ⟨true, ?_, rfl⟩
        exact List.mem_map.mpr ⟨e, he, by simp [h1]⟩
      rw [hb] at this
      exact absurd this (by simp)
    have hsplit : splitRegularReducing shapes opDims =
        { regularOpDims := opDims
          regularStrides := shapes.map (·.strides)
          reducingOpDims := []
          reducingStrides := shapes.map (fun _ => []) } := by
      simp only [splitRegularReducing]
      rw [if_neg (by rw [hb2]; exact Bool.false_ne_true)]
    constructor
    · refine ⟨?_, ?_, ?_, ?_⟩
      · rw [hsplit, filterMap_zip_eq_nil opDims _ hall]
      · rw [hsplit, filterMap_zip_eq_self _ opDims hldim.symm hall]
      · rw [hsplit]
        refine List.map_congr_left (fun s hs => ?_)
        rw [filterMap_zip_eq_nil s.strides _ hall]
      · rw [hsplit]
        refine List.map_congr_left (fun s hs => ?_)
        rw [filterMap_zip_eq_self _ s.strides (((hlen s hs).2).trans hldim.symm) hall]
    · intro _
      rw [hsplit]
      exact ⟨rfl, rfl, rfl, rfl⟩

/-- Witness for C3 at a concrete binary negotiation state with one reducing
axis: output extents [1, 4] against operation extents [3, 4]. -/
theorem C3_regular_reducing_split_witness :
    (splitRegularReducing [⟨[3, 4], [1, 3], 0⟩, ⟨[1, 4], [0, 1], 0⟩] [3, 4]).reducingOpDims =
      ([3, 4].zip [1, 4]).filterMap (fun p => if p.2 = 1 then some p.1 else none) :=
  (C3_regular_reducing_split [⟨[3, 4], [1, 3], 0⟩, ⟨[1, 4], [0, 1], 0⟩] [3, 4]
    (by simp) (by decide)).1.1

/-- The common negotiation rank of claim C2: the maximum participant rank,
at least 1. -/
def negotRank (shapes : List TensorShape) : Nat :=
  (shapes.map TensorShape.rank).foldl max 1

/-- The operation extent of claim C2 on axis `k`: the maximum of the
participants' (1-padded) extents there. -/
def maxExtent (shapes : List TensorShape) (k : Nat) : Nat :=
  shapes.foldl (fun m s => max m (s.dim k)) 0

/-- C2 counterexample: with participant extents 0 and 1 on an axis, the
operation extent is 1 and the compatibility test `Matches(0, 1)` accepts the
zero extent (because the operation extent is 1), so negotiation succeeds
even though the zero extent neither equals the operation extent nor equals
1, contradicting the claimed "if and only if". -/
theorem C2_zero_extent_counterexample :
    (∃ p, prepareTensorOperands [⟨[0], [1], 0⟩, ⟨[1], [1], 0⟩] = .ok p) ∧
    ¬(∀ k < negotRank [⟨[0], [1], 0⟩, ⟨[1], [1], 0⟩],
        ∀ s ∈ [(⟨[0], [1], 0⟩ : TensorShape), ⟨[1], [1], 0⟩],
          s.dim k = maxExtent [⟨[0], [1], 0⟩, ⟨[1], [1], 0⟩] k ∨ s.dim k = 1) :=
  ⟨⟨⟨[0, 0], [], [[], []], [1], [[1], [1]]⟩, rfl⟩, by decide⟩

/-- A default-valued read of a replicated list always yields the replicated
value. -/
theorem getD_replicate_self {α : Type} (m k : Nat) (a : α) :
    (List.replicate m a).getD k a = a := by
  induction m generalizing k with
  | zero => simp
  | succ i ih => cases k <;> simp [List.replicate_succ, ih]

/-- Rank padding does not change the (1-padded) extent on any axis. -/
theorem padRank_dim (s : TensorShape) (n k : Nat) :
    (s.padRank n).dim k = s.dim k := by
  show (s.dims ++ List.replicate (n - s.rank) 1).getD k 1 = s.dims.getD k 1
  by_cases hk : k < s.dims.length
  · rw [List.getD_append _ _ _ _ hk]
  · rw [List.getD_eq_default _ _ (Nat.le_of_not_lt hk),
        List.getD_append_right _ _ _ _ (Nat.le_of_not_lt hk), getD_replicate_self]

/-- Rank padding produces exactly the requested rank when it is at least the
shape's own rank. -/
theorem padRank_dims_length (s : TensorShape) (n : Nat) (h : s.rank ≤ n) :
    (s.padRank n).dims.length = n := by
  simp only [TensorShape.padRank, List.length_append, List.length_replicate]
  simp only [TensorShape.rank] at h ⊢
  omega

/-- In-range default-0 reads of a padded extent list equal the original
(1-padded) extent. -/
theorem padRank_getD_zero (s : TensorShape) (n k : Nat) (hk : k < n) :
    (s.padRank n).dims.getD k 0 = s.dim k := by
  have hle : n ≤ (s.padRank n).dims.length := by
    simp only [TensorShape.padRank, List.length_append, List.length_replicate, TensorShape.rank]
    omega
  have hlen : k < (s.padRank n).dims.length := by omega
  rw [List.getD_eq_getElem _ _ hlen, ← List.getD_eq_getElem _ 1 hlen]
  exact padRank_dim s n k

/-- The initial accumulator bounds a left max-fold from below. -/
theorem foldl_max_init_le (l : List Nat) : ∀ b : Nat, b ≤ l.foldl max b := by
  induction l with
  | nil => intro b; exact Nat.le_refl b
  | cons x xs ih => intro b; exact le_trans (Nat.le_max_left b x) (ih (max b x))

/-- Every member bounds a left max-fold from below. -/
theorem mem_le_foldl_max (l : List Nat) : ∀ (b x : Nat), x ∈ l → x ≤ l.foldl max b := by
  induction l with
  | nil => intro b x hx; simp at hx
  | cons y ys ih =>
    intro b x hx
    rcases List.mem_cons.mp hx with rfl | hx
    · exact le_trans (Nat.le_max_right b x) (foldl_max_init_le ys (max b x))
    · exact ih (max b y) x hx

/-- The max-fold over participant extent lists preserves the accumulator
length when every list has that length. -/
theorem foldl_zipWith_length (l : List TensorShape) :
    ∀ acc : List Nat, (∀ a ∈ l, a.dims.length = acc.length) →
      (l.foldl (fun x s => x.zipWith max s.dims) acc).length = acc.length := by
  induction l with
  | nil => intro acc _; rfl
  | cons s ss ih =>
    intro acc h
    have hs : s.dims.length = acc.length := h s (by simp)
    have hlen : (acc.zipWith max s.dims).length = acc.length := by
      rw [List.length_zipWith, hs, Nat.min_self]
    rw [List.foldl_cons]
    rw [ih (acc.zipWith max s.dims) (fun a ha => by rw [h a (by simp [ha]), hlen])]
    exact hlen

/-- The max-fold over participant extent lists acts pointwise. -/
theorem foldl_zipWith_getD (l : List TensorShape) :
    ∀ (acc : List Nat) (k : Nat), (∀ a ∈ l, a.dims.length = acc.length) → k < acc.length →
      (l.foldl (fun x s => x.zipWith max s.dims) acc).getD k 0 =
        l.foldl (fun m s => max m (s.dims.getD k 0)) (acc.getD k 0) := by
  induction l with
  | nil => intro acc k _ _; rfl
  | cons s ss ih =>
    intro acc k h hk
    have hs : s.dims.length = acc.length := h s (by simp)
    have hlen : (acc.zipWith max s.dims).length = acc.length := by
      rw [List.length_zipWith, hs, Nat.min_self]
    rw [List.foldl_cons, List.foldl_cons]
    rw [ih (acc.zipWith max s.dims) k (fun a ha => by rw [h a (by simp [ha]), hlen])
        (by omega)]
    congr 1
    have hk2 : k < (acc.zipWith max s.dims).length := by omega
    rw [List.getD_eq_getElem _ _ hk2, List.getElem_zipWith,
        ← List.getD_eq_getElem acc 0 (by omega), ← List.getD_eq_getElem s.dims 0 (by omega)]

/-- The compatibility scan finds nothing iff every participant matches the
operation extent on every axis. -/
theorem firstIncompat_none_iff (P : List TensorShape) (D : List Nat) :
    firstIncompat P D = none ↔
      ∀ k < D.length, ∀ i < P.length,
        Matches ((P.getD i default).dim k) (D.getD k 0) = true := by
  unfold firstIncompat
  rw [List.findSome?_eq_none_iff]
  constructor
  · intro h k hk i hi
    have h2 := h k (List.mem_range.mpr hk)
    rw [Option.map_eq_none', List.find?_eq_none] at h2
    have h3 := h2 i (List.mem_range.mpr hi)
    simpa using h3
  · intro h k hkmem
    rw [Option.map_eq_none', List.find?_eq_none]
    intro i himem
    have h3 := h k (List.mem_range.mp hkmem) i (List.mem_range.mp himem)
    intro hcon
    rw [h3] at hcon
    exact absurd hcon (by decide)

/-- The compatibility scan reports a genuinely offending axis/participant
pair. -/
theorem firstIncompat_some (P : List TensorShape) (D : List Nat) (k i : Nat)
    (h : firstIncompat P D = some (k, i)) :
    k < D.length ∧ i < P.length ∧
      Matches ((P.getD i default).dim k) (D.getD k 0) = false := by
  unfold firstIncompat at h
  obtain ⟨k2, hk2mem, hk2⟩ := List.exists_of_findSome?_eq_some h
  rcases hmap : (List.range P.length).find?
      (fun j => !Matches ((P.getD j default).dim k2) (D.getD k2 0)) with _ | j
  · rw [hmap] at hk2
    simp at hk2
  · rw [hmap] at hk2
    simp only [Option.map_some'] at hk2
    obtain ⟨hke, hje⟩ : k2 = k ∧ j = i := by
      constructor <;> [exact congrArg Prod.fst (Option.some.inj hk2);
                       exact congrArg Prod.snd (Option.some.inj hk2)]
    subst hke; subst hje
    have hjmem := List.mem_of_find?_eq_some hmap
    have hp := List.find?_some hmap
    refine ⟨List.mem_range.mp hk2mem, List.mem_range.mp hjmem, ?_⟩
    simpa using hp

/-- Core facts about the padded participant list and the operation shape of
one negotiation: the operation shape has the common rank, its entries are
the claim-side maxima, the per-index compatibility of the padded
participants coincides with the claim-side compatibility of the original
participants, and an offending pair refutes the claim-side compatibility. -/
theorem negot_facts (s0 : TensorShape) (srest : List TensorShape) (n : Nat)
    (P : List TensorShape) (D : List Nat)
    (hn : n = (srest.map TensorShape.rank).foldl max (max 1 s0.rank))
    (hP : P = (s0 :: srest).map (fun s => TensorShape.padRank s n))
    (hD : D = (P.drop 1).foldl (fun acc s => acc.zipWith max s.dims) ((P.getD 0 default).dims)) :
    D.length = n ∧ P.length = (s0 :: srest).length ∧
    (∀ k, k < n →
      ((∀ i < P.length, Matches ((P.getD i default).dim k) (D.getD k 0) = true) ↔
        (∀ s ∈ s0 :: srest, s.dim k = maxExtent (s0 :: srest) k ∨ s.dim k = 1 ∨
          maxExtent (s0 :: srest) k = 1))) ∧
    (∀ k i, k < D.length → i < P.length →
      Matches ((P.getD i default).dim k) (D.getD k 0) = false →
      ¬(((s0 :: srest).getD i default).dim k = maxExtent (s0 :: srest) k ∨
        ((s0 :: srest).getD i default).dim k = 1 ∨ maxExtent (s0 :: srest) k = 1)) := by
  have hrank_le : ∀ s ∈ s0 :: srest, s.rank ≤ n := by
    intro s hs
    rcases List.mem_cons.mp hs with rfl | hs
    · rw [hn]
      exact le_trans (Nat.le_max_right 1 s.rank) (foldl_max_init_le _ _)
    · rw [hn]
      exact mem_le_foldl_max _ _ _ (List.mem_map.mpr ⟨s, hs, rfl⟩)
  have hp0 : P.getD 0 default = TensorShape.padRank s0 n := by rw [hP]; rfl
  have hdrop : P.drop 1 = srest.map (fun s => TensorShape.padRank s n) := by rw [hP]; rfl
  have hPlen : P.length = (s0 :: srest).length := by rw [hP]; simp
  have hPdimlen : ∀ q ∈ P, q.dims.length = n := by
    intro q hq
    rw [hP] at hq
    rcases List.mem_map.mp hq with ⟨s, hs, rfl⟩
    exact padRank_dims_length s n (hrank_le s hs)
  have hp0len : (P.getD 0 default).dims.length = n := by
    rw [hp0]
    exact padRank_dims_length s0 n (hrank_le s0 (by simp))
  have hDlen : D.length = n := by
    rw [hD]
    rw [foldl_zipWith_length _ _ (fun a ha => by
      rw [hPdimlen a (List.mem_of_mem_drop ha), hp0len])]
    exact hp0len
  have hDval : ∀ k, k < n → D.getD k 0 = maxExtent (s0 :: srest) k := by
    intro k hk
    rw [hD, foldl_zipWith_getD _ _ k (fun a ha => by
      rw [hPdimlen a (List.mem_of_mem_drop ha), hp0len]) (by omega)]
    rw [hdrop, List.foldl_map, hp0, padRank_getD_zero s0 n k hk]
    rw [show (fun (m : Nat) (s : TensorShape) =>
          max m ((TensorShape.padRank s n).dims.getD k 0)) = (fun m s => max m (s.dim k))
        from funext fun m => funext fun s => by rw [padRank_getD_zero s n k hk]]
    simp only [maxExtent, List.foldl_cons, Nat.zero_max]
  have hPi : ∀ i, i < (s0 :: srest).length →
      P.getD i default = TensorShape.padRank ((s0 :: srest).getD i default) n := by
    intro i hi
    have hil : i < ((s0 :: srest).map (fun s => TensorShape.padRank s n)).length := by
      simpa using hi
    rw [hP, List.getD_eq_getElem _ _ hil, List.getElem_map, ← List.getD_eq_getElem _ _ hi]
  refine ⟨hDlen, hPlen, ?_, ?_⟩
  · intro k hk
    have hDk := hDval k hk
    constructor
    · intro hall s hs
      obtain ⟨i, hi, heq⟩ := List.mem_iff_getElem.mp hs
      have hgd : (s0 :: srest).getD i default = s := by
        rw [List.getD_eq_getElem _ _ hi, heq]
      have hiP : i < P.length := by omega
      have h2 := hall i hiP
      rw [hPi i hi, padRank_dim, hgd, hDk] at h2
      simpa [Matches, Bool.or_eq_true, beq_iff_eq, or_assoc] using h2
    · intro hall i hiP
      have hi : i < (s0 :: srest).length := by omega
      have hmem : (s0 :: srest).getD i default ∈ s0 :: srest := by
        rw [List.getD_eq_getElem _ _ hi]
        exact List.getElem_mem hi
      have h2 := hall _ hmem
      rw [hPi i hi, padRank_dim, hDk]
      simpa [Matches, Bool.or_eq_true, beq_iff_eq, or_assoc] using h2
  · intro k i hkD hiP hM
    have hi : i < (s0 :: srest).length := by omega
    have hk : k < n := by omega
    rw [hPi i hi, padRank_dim, hDval k hk] at hM
    intro hcontra
    rw [show Matches (((s0 :: srest).getD i default).dim k) (maxExtent (s0 :: srest) k) = true
        from by simpa [Matches, Bool.or_eq_true, beq_iff_eq, or_assoc] using hcontra] at hM
    exact absurd hM (by simp)

/-- C2 (amended): negotiation with 1 to 5 participants succeeds iff on every
axis each participant's (1-padded) extent equals the operation extent (the
maximum over the participants) or equals 1, or the operation extent on that
axis is itself 1 (which admits extent 0 under a unit operation extent); on
failure the invalid-argument error names a genuinely offending axis and
participant. -/
theorem C2_broadcast_compatibility (shapes : List TensorShape)
    (h1 : 1 ≤ shapes.length) (h5 : shapes.length ≤ 5) :
    ((∃ p, prepareTensorOperands shapes = .ok p) ↔
      (∀ k < negotRank shapes, ∀ s ∈ shapes,
        s.dim k = maxExtent shapes k ∨ s.dim k = 1 ∨ maxExtent shapes k = 1)) ∧
    (∀ k i : Nat, prepareTensorOperands shapes = .error (.incompatibleDims k i) →
      ¬((shapes.getD i default).dim k = maxExtent shapes k ∨
        (shapes.getD i default).dim k = 1 ∨ maxExtent shapes k = 1)) := by
  cases shapes with
  | nil => exact absurd h1 (by simp)
  | cons s0 srest =>
    constructor
    · simp only [prepareTensorOperands]
      set n := (srest.map TensorShape.rank).foldl max (max 1 s0.rank) with hn
      set P := (s0 :: srest).map (fun s => TensorShape.padRank s n) with hP
      set D := (P.drop 1).foldl (fun acc s => acc.zipWith max s.dims)
        ((P.getD 0 default).dims) with hD
      obtain ⟨hDlen, hPlen, htrans, hrefute⟩ := negot_facts s0 srest n P D hn hP hD
      have hnr : negotRank (s0 :: srest) = n := by rw [hn]; rfl
      cases hfi : firstIncompat P D with
      | none =>
        have hcomp := (firstIncompat_none_iff P D).mp hfi
        refine iff_of_true ⟨_, rfl⟩ ?_
        intro k hk s hs
        rw [hnr] at hk
        exact (htrans k hk).mp (fun i hi => hcomp k (by omega) i hi) s hs
      | some ki =>
        obtain ⟨hkD, hiP, hM⟩ := firstIncompat_some P D ki.1 ki.2 hfi
        refine iff_of_false (by simp) ?_
        intro hall
        have hkn : ki.1 < n := by omega
        have h2 := (htrans ki.1 hkn).mpr (fun s hs => hall ki.1 (by rw [hnr]; exact hkn) s hs)
        rw [h2 ki.2 hiP] at hM
        exact absurd hM (by simp)
    · intro k i herr
      simp only [prepareTensorOperands] at herr
      set n := (srest.map TensorShape.rank).foldl max (max 1 s0.rank) with hn
      set P := (s0 :: srest).map (fun s => TensorShape.padRank s n) with hP
      set D := (P.drop 1).foldl (fun acc s => acc.zipWith max s.dims)
        ((P.getD 0 default).dims) with hD
      obtain ⟨hDlen, hPlen, htrans, hrefute⟩ := negot_facts s0 srest n P D hn hP hD
      cases hfi : firstIncompat P D with
      | none =>
        rw [hfi] at herr
        simp at herr
      | some ki =>
        rw [hfi] at herr
        simp only [Except.error.injEq] at herr
        obtain ⟨hke, hie⟩ : ki.1 = k ∧ ki.2 = i := by
          injection herr with hh1 hh2
          exact ⟨hh1, hh2⟩
        obtain ⟨hkD, hiP, hM⟩ := firstIncompat_some P D ki.1 ki.2 hfi
        rw [← hke, ← hie]
        exact hrefute ki.1 ki.2 hkD hiP hM

/-- Witness for C2 at the spec's broadcast example, shapes [3] and [3 x 4]:
every axis is compatible, so negotiation succeeds. -/
theorem C2_broadcast_compatibility_witness :
    ∃ p, prepareTensorOperands [⟨[3], [1], 0⟩, ⟨[3, 4], [1, 3], 0⟩] = .ok p :=
  (C2_broadcast_compatibility [⟨[3], [1], 0⟩, ⟨[3, 4], [1, 3], 0⟩]
    (by decide) (by decide)).1.mpr (by decide)
